import Mathlib

/-!
Verification of the host-information reporter (`src/main.rs`).

Shallow embedding conventions:
* Rust `usize`/`u64` values are modelled as `ℕ`; the one place the code casts
  `usize` to `i64` (`convert_unix_to_human_string`) models the two's-complement
  wrap of a 64-bit cast explicitly.
* `f64`/`f32` quantities (CPU usage percentages, frequencies as compared in
  `get_cpu_info`) are modelled as exact rationals `ℚ`; frequencies themselves
  come from `sysinfo`'s `Cpu::frequency() : u64` and are modelled as `ℕ`.
* Fallible or aborting operations return `Option`: `none` models a panic
  (chrono's `Duration::seconds` aborts when its argument is outside
  `[-9223372036854775, 9223372036854775]`, the whole-seconds range of
  `chrono::Duration`: `TimeDelta::MIN` is `-i64::MAX` milliseconds, a
  fractional second, so `-9223372036854776` whole seconds is already
  rejected).
* Rust's `format!("{}", n)` decimal rendering of unsigned integers is modelled
  by `natRepr` below (fuel-structured so that it reduces by `rfl`).
-/

/-- The character for a single decimal digit `d < 10` (Rust digit rendering). -/
def digitChar (d : ℕ) : Char := Char.ofNat (48 + d)

/-- Decimal digit list of `n`, most significant first; `fuel` bounds recursion
depth and is sufficient whenever `n` has at most `fuel` digits. -/
def natDigitsAux : ℕ → ℕ → List Char
  | 0, _ => []
  | fuel + 1, n =>
    if n < 10 then [digitChar n]
    else natDigitsAux fuel (n / 10) ++ [digitChar (n % 10)]

/-- Decimal digit list of a natural number, most significant digit first.
64 digits of fuel cover every value a 64-bit machine integer can take, which
is the domain of every number the program renders. -/
def natDigits (n : ℕ) : List Char := natDigitsAux 64 n

/-- Rust's `format!("{}", n)` for an unsigned integer. -/
def natRepr (n : ℕ) : String := String.mk (natDigits n)

/-- Rust's `format!("{}", i)` for a signed 64-bit integer. -/
def intRepr (i : ℤ) : String :=
  if i < 0 then "-" ++ natRepr i.natAbs else natRepr i.natAbs

/-- Smallest whole-seconds value accepted by `chrono::Duration::seconds`.
`TimeDelta::MIN` is `-i64::MAX` milliseconds, about `-9223372036854775.807`
seconds — not a whole second — and `TimeDelta::new(secs, 0)` rejects
`secs == MIN.secs = -9223372036854776` because its zero nanoseconds lie
below `MIN`'s nanosecond field; so `-9223372036854775` is the least
argument on which `Duration::seconds` succeeds. -/
def CHRONO_MIN_SECS : ℤ := -9223372036854775

/-- Largest seconds value representable by `chrono::Duration`
(`i64::MAX / 1000`). -/
def CHRONO_MAX_SECS : ℤ := 9223372036854775

/-- `convert_unix_to_human_string` from `src/main.rs`.  The Rust code computes
`Duration::seconds(unix_time as i64)` and then takes `num_days`,
`num_hours % 24`, `num_minutes % 60`.  The `as i64` cast wraps modulo `2^64`
(64-bit `usize`), and `chrono::Duration::seconds` aborts (modelled as `none`)
when the wrapped value falls outside chrono's representable seconds range.
Rust's `/` and `%` on `i64` truncate towards zero, hence `Int.tdiv`/`Int.tmod`. -/
def convert_unix_to_human_string (unix_time : ℕ) : Option String :=
  let secs : ℤ :=
    if unix_time < 2 ^ 63 then (unix_time : ℤ) else (unix_time : ℤ) - 2 ^ 64
  if secs < CHRONO_MIN_SECS ∨ CHRONO_MAX_SECS < secs then none
  else
    let days := secs.tdiv 86400
    let hours := (secs.tdiv 3600).tmod 24
    let minutes := (secs.tdiv 60).tmod 60
    if 0 < days then
      some (intRepr days ++ "d " ++ intRepr hours ++ "h " ++ intRepr minutes ++ "m")
    else if 0 < hours then
      some (intRepr hours ++ "h " ++ intRepr minutes ++ "m")
    else
      some (intRepr minutes ++ "m")

/-- The duration string as described by the specification: days `s / 86400`,
hours `(s mod 86400) / 3600`, minutes `(s mod 86400) / 60 mod 60`, seconds
discarded, with the first-match selection policy. -/
def uptimeStr (s : ℕ) : String :=
  let days := s / 86400
  let hours := s % 86400 / 3600
  let minutes := s % 86400 / 60 % 60
  if 0 < days then
    natRepr days ++ "d " ++ natRepr hours ++ "h " ++ natRepr minutes ++ "m"
  else if 0 < hours then
    natRepr hours ++ "h " ++ natRepr minutes ++ "m"
  else
    natRepr minutes ++ "m"

/-- One raw per-logical-core reading (`sysinfo::Cpu` as consumed by
`get_cpu_info`): brand string, usage percentage (`f32`, modelled exactly as
`ℚ`) and frequency in MHz (`u64`, modelled as `ℕ`). -/
structure RawCpuSample where
  brand : String
  usage_percent : ℚ
  frequency_mhz : ℕ
deriving DecidableEq

/-- `CpuInfo` from `src/main.rs`. -/
structure CpuInfo where
  num_cores : ℕ
  avg_usage : ℚ
  max_frequency_mhz : ℚ
deriving DecidableEq

/-- The `or_insert` default of the `entry` call in `get_cpu_info`. -/
def emptyCpuInfo : CpuInfo := ⟨0, 0, 0⟩

/-- One iteration of the CPU loop body applied to the group entry of the
sample's brand: increment cores, accumulate usage, track max frequency. -/
def applySample (c : CpuInfo) (s : RawCpuSample) : CpuInfo :=
  { num_cores := c.num_cores + 1
    avg_usage := c.avg_usage + s.usage_percent
    max_frequency_mhz :=
      if (s.frequency_mhz : ℚ) > c.max_frequency_mhz then (s.frequency_mhz : ℚ)
      else c.max_frequency_mhz }

/-- `cpu_info_map.entry(cpu.brand()).or_insert(default)` followed by the loop
body; the `HashMap` is modelled as an association list with distinct keys. -/
def insertSample : List (String × CpuInfo) → RawCpuSample → List (String × CpuInfo)
  | [], s => [(s.brand, applySample emptyCpuInfo s)]
  | (k, v) :: rest, s =>
    if k = s.brand then (k, applySample v s) :: rest
    else (k, v) :: insertSample rest s

/-- The second loop of `get_cpu_info`: divide each accumulated usage sum by
the group's core count. -/
def normalizeAvg (m : List (String × CpuInfo)) : List (String × CpuInfo) :=
  m.map (fun p => (p.1, { p.2 with avg_usage := p.2.avg_usage / (p.2.num_cores : ℚ) }))

/-- `get_cpu_info` from `src/main.rs`, as a function of the raw samples. -/
def get_cpu_info (samples : List RawCpuSample) : List (String × CpuInfo) :=
  normalizeAvg (samples.foldl insertSample [])

/-- Map lookup on the association-list model of the `HashMap`. -/
def lookupB (b : String) : List (String × CpuInfo) → Option CpuInfo
  | [] => none
  | (k, v) :: rest => if k = b then some v else lookupB b rest

/-- The samples of one brand group, in input order. -/
def brandSamples (b : String) (l : List RawCpuSample) : List RawCpuSample :=
  l.filter (fun s => s.brand = b)

/-- Number of samples carrying brand `b`. -/
def countBrand (b : String) (l : List RawCpuSample) : ℕ := (brandSamples b l).length

/-- Sum of the usage percentages of brand `b`'s samples. -/
def sumUsage (b : String) (l : List RawCpuSample) : ℚ :=
  ((brandSamples b l).map RawCpuSample.usage_percent).sum

/-- Maximum frequency over brand `b`'s samples (0 for the empty group). -/
def maxFreqN (b : String) (l : List RawCpuSample) : ℕ :=
  ((brandSamples b l).map RawCpuSample.frequency_mhz).foldr max 0

/-- `wgpu::DeviceType`. `Other` is the "unknown" classification and `Cpu` the
software rasterizer. -/
inductive DeviceType where
  | Other
  | IntegratedGpu
  | DiscreteGpu
  | VirtualGpu
  | Cpu
deriving DecidableEq

/-- A raw adapter descriptor as returned by `adapter.get_info()`. -/
structure AdapterInfo where
  name : String
  device_type : DeviceType
deriving DecidableEq

/-- `GpuInfo` from `src/main.rs`. -/
structure GpuInfo where
  device_index : ℕ
  gpu_name : String
deriving DecidableEq

/-- The `match info.device_type` arms building `gpu_name`. -/
def gpuDisplayName (a : AdapterInfo) : String :=
  match a.device_type with
  | DeviceType.IntegratedGpu => a.name ++ " (Integrated GPU)"
  | DeviceType.DiscreteGpu => a.name ++ " (Discrete GPU)"
  | DeviceType.VirtualGpu => a.name ++ " (Virtual GPU)"
  | DeviceType.Cpu => a.name ++ " (Software Rasterizer)"
  | DeviceType.Other => a.name ++ " (unknown gpu type)"

/-- The enumeration loop of `get_gpu_info`: positional index from
`enumerate()`, `continue` on `Other`/`Cpu`, push a record otherwise. -/
def gpuLoop : ℕ → List AdapterInfo → List GpuInfo
  | _, [] => []
  | idx, a :: rest =>
    if a.device_type = DeviceType.Other ∨ a.device_type = DeviceType.Cpu then
      gpuLoop (idx + 1) rest
    else
      ⟨idx, gpuDisplayName a⟩ :: gpuLoop (idx + 1) rest

/-- `get_gpu_info` from `src/main.rs` as a function of the enumerated
adapters; `sort_by` on `device_index` is Rust's stable sort, modelled by
`List.mergeSort`. -/
def get_gpu_info (adapters : List AdapterInfo) : List GpuInfo :=
  (gpuLoop 0 adapters).mergeSort (fun x y => x.device_index ≤ y.device_index)

/-- The parenthetical label the specification assigns to each retained
device kind. -/
def retainedLabel : DeviceType → String
  | DeviceType.IntegratedGpu => "Integrated GPU"
  | DeviceType.DiscreteGpu => "Discrete GPU"
  | DeviceType.VirtualGpu => "Virtual GPU"
  | _ => ""

/-- `s` ends with the string `t` (on the underlying character lists). -/
def EndsIn (s t : String) : Prop := t.data <:+ s.data

/-- `OutputInfo` from `src/main.rs`; the `HashMap` field is modelled as the
association list produced by `get_cpu_info`, in its (unspecified) iteration
order. -/
structure OutputInfo where
  username : String
  hostname : String
  os : String
  serial_number : String
  kernel : String
  uptime : ℕ
  cpu : List (String × CpuInfo)
  gpu : List GpuInfo
  memory_used_mb : ℕ
  memory_total_mb : ℕ

/-- Hundredths of a non-negative rational, rounded to the nearest integer:
`⌊100q + 1/2⌋` computed as the floor division
`(200·num + den) / (2·den)`. -/
def roundHundredths (q : ℚ) : ℤ := (200 * q.num + (q.den : ℤ)).ediv (2 * (q.den : ℤ))

/-- Rust's `format!("{:.2}", x)` fixed-two-decimals float rendering, on the
exact rational model.  (Rust rounds ties to even; no value this development
evaluates sits on a tie, so half-up rounding is an adequate model.) -/
def fmt2 (q : ℚ) : String :=
  (if q < 0 then "-" else "")
    ++ natRepr ((roundHundredths (if q < 0 then -q else q)).toNat / 100)
    ++ "."
    ++ (if (roundHundredths (if q < 0 then -q else q)).toNat % 100 < 10 then "0" else "")
    ++ natRepr ((roundHundredths (if q < 0 then -q else q)).toNat % 100)

/-- One `CPU:` line of `print_all_info`. -/
def cpuLine (p : String × CpuInfo) : String :=
  "CPU:       " ++ p.1 ++ " - " ++ natRepr p.2.num_cores ++ " cores, "
    ++ fmt2 p.2.avg_usage ++ "% avg, " ++ fmt2 p.2.max_frequency_mhz ++ " MHz (max)"

/-- Rust's `{:.>3}` formatting of a device index: right-aligned to width 3,
filled with `.` on the left. -/
def padIndex3 (n : ℕ) : String :=
  String.mk (List.replicate (3 - (natDigits n).length) '.') ++ natRepr n

/-- One `GPU ..i:` line of `print_all_info`. -/
def gpuLine (g : GpuInfo) : String :=
  "GPU " ++ padIndex3 g.device_index ++ ":   " ++ g.gpu_name

/-- The `output_info_vec` built by `print_all_info`.  `none` models the
abort that `convert_unix_to_human_string` raises inside the `Uptime:` line
when the uptime exceeds chrono's bounds.  Rust's `String::len` (bytes) is
modelled by `String.utf8ByteSize`. -/
def compose (o : OutputInfo) : Option (List String) :=
  match convert_unix_to_human_string o.uptime with
  | none => none
  | some up =>
    some ([o.username ++ "@" ++ o.hostname,
           String.mk (List.replicate (o.username.utf8ByteSize + o.hostname.utf8ByteSize + 1) '-'),
           "OS:        " ++ o.os,
           "Serial:    " ++ o.serial_number,
           "Kernel:    " ++ o.kernel,
           "Uptime:    " ++ up]
      ++ o.cpu.map cpuLine
      ++ o.gpu.map gpuLine
      ++ ["Memory:    " ++ natRepr o.memory_used_mb ++ "/"
            ++ natRepr o.memory_total_mb ++ " MB used"])

/-- `LOGO_HEIGHT` from `src/main.rs`. -/
def LOGO_HEIGHT : ℕ := 9

/-- `LOGO_WIDTH` from `src/main.rs`. -/
def LOGO_WIDTH : ℕ := 32

/-- The decorative block `LOGO` from `src/main.rs`. -/
def LOGO : List String :=
  ["       :#.                      ",
   "       :#-:****************+    ",
   "         -::::::::.......:::    ",
   "   .#*               -**=:.     ",
   "    #-::            =%%=:.      ",
   "     --::.        :*%#::        ",
   "       -:::.    .=%%-:          ",
   "         :::=######:.           ",
   "          .::::::..             "]

/-- The printing loop at the end of `print_all_info`: a leading blank line,
each composed line paired with its logo row (or 32 spaces past the logo),
the remaining bare logo rows when there are fewer lines than logo rows, and
a trailing blank line.  Each element is one emitted terminal line. -/
def render (ls : List String) : List String :=
  [""]
    ++ ls.enum.map (fun p =>
        if p.1 < LOGO_HEIGHT then LOGO.getD p.1 "" ++ p.2
        else String.mk (List.replicate LOGO_WIDTH ' ') ++ p.2)
    ++ (if ls.length < LOGO_HEIGHT then
          (List.range' ls.length (LOGO_HEIGHT - ls.length)).map (fun i => LOGO.getD i "")
        else [])
    ++ [""]

/-- `get_hostname` from `src/main.rs`: the fallible lookup result resolved
with the `"unknown"` fallback. -/
def get_hostname (r : Option String) : String := r.getD "unknown"

/-- `get_serial_number` from `src/main.rs`: `Motherboard::new()` chained with
`serial_number()` and resolved with the `"xxxxxxxxxx"` fallback. -/
def get_serial_number (r : Option (Option String)) : String :=
  (r.bind id).getD "xxxxxxxxxx"

/-- `main` from `src/main.rs` as a function of the platform-support flag and
the gathered facts: the pair is (emitted lines, exit code); `none` models an
abort before any report line is printed. -/
def main_model (supported : Bool) (o : OutputInfo) : Option (List String × ℕ) :=
  if supported = false then some (["System not supported. Aborting."], 1)
  else
    match compose o with
    | none => none
    | some ls => some (render ls, 0)

/-- The §8 end-to-end scenario report. -/
def demoReport : OutputInfo :=
  { username := "alice", hostname := "box", os := "TestOS",
    serial_number := "SN123", kernel := "1.0", uptime := 3725,
    cpu := [("Model X", ⟨4, 50, 3000⟩)],
    gpu := [⟨0, "Card (Discrete GPU)"⟩],
    memory_used_mb := 1024, memory_total_mb := 8192 }

/-- The §8 report with an uptime beyond chrono's seconds bound. -/
def demoHugeUptimeReport : OutputInfo := { demoReport with uptime := 9223372036854776 }

/-- A small concrete adapter list exercising filtering and labelling. -/
def demoAdapters : List AdapterInfo :=
  [⟨"Card", DeviceType.DiscreteGpu⟩, ⟨"Soft", DeviceType.Cpu⟩,
   ⟨"IGPU", DeviceType.IntegratedGpu⟩]

/-- A small concrete sample list with two brands. -/
def demoSamples : List RawCpuSample :=
  [⟨"A", 60, 2000⟩, ⟨"B", 10, 1000⟩, ⟨"A", 40, 3000⟩]

lemma intRepr_natCast (k : ℕ) : intRepr (k : ℤ) = natRepr k := by
  simp [intRepr]

lemma tdiv_natCast (a b : ℕ) : (a : ℤ).tdiv (b : ℤ) = ((a / b : ℕ) : ℤ) := rfl

lemma tmod_natCast (a b : ℕ) : (a : ℤ).tmod (b : ℤ) = ((a % b : ℕ) : ℤ) := rfl

lemma hours_rewrite (n : ℕ) : n / 3600 % 24 = n % 86400 / 3600 := by
  have h : n % (3600 * 24) / 3600 = n / 3600 % 24 := Nat.mod_mul_right_div_self n 3600 24
  simpa using h.symm

lemma minutes_rewrite (n : ℕ) : n / 60 % 60 = n % 86400 / 60 % 60 := by
  have h : n % (60 * 1440) / 60 = n / 60 % 1440 := Nat.mod_mul_right_div_self n 60 1440
  have h2 : n % 86400 / 60 % 60 = n / 60 % 1440 % 60 := by
    rw [← h]
  rw [h2, Nat.mod_mod_of_dvd _ (by norm_num)]

/-- Key bridge: for inputs within chrono's seconds bound the Rust function
succeeds and produces exactly the specified decomposition string. -/
lemma convert_eq_uptimeStr (n : ℕ) (h : n ≤ 9223372036854775) :
    convert_unix_to_human_string n = some (uptimeStr n) := by
  have hlt : n < 2 ^ 63 := by omega
  unfold convert_unix_to_human_string
  rw [if_pos hlt]
  rw [if_neg (by
    rw [CHRONO_MIN_SECS, CHRONO_MAX_SECS]
    omega)]
  have h86400 : ((86400 : ℕ) : ℤ) = (86400 : ℤ) := by norm_cast
  have h3600 : ((3600 : ℕ) : ℤ) = (3600 : ℤ) := by norm_cast
  have h60 : ((60 : ℕ) : ℤ) = (60 : ℤ) := by norm_cast
  have h24 : ((24 : ℕ) : ℤ) = (24 : ℤ) := by norm_cast
  have hd : (n : ℤ).tdiv 86400 = ((n / 86400 : ℕ) : ℤ) := by
    rw [← h86400, tdiv_natCast]
  have hh : ((n : ℤ).tdiv 3600).tmod 24 = ((n / 3600 % 24 : ℕ) : ℤ) := by
    rw [← h3600, tdiv_natCast, ← h24, tmod_natCast]
  have hm : ((n : ℤ).tdiv 60).tmod 60 = ((n / 60 % 60 : ℕ) : ℤ) := by
    rw [← h60, tdiv_natCast, tmod_natCast]
  rw [hd, hh, hm]
  rw [uptimeStr]
  simp only [intRepr_natCast, Int.natCast_pos, ← hours_rewrite, ← minutes_rewrite]
  split_ifs <;> rfl


lemma digitChar_toNat {d : ℕ} (h : d < 10) : (digitChar d).toNat = 48 + d := by
  interval_cases d <;> decide

lemma natDigitsAux_digit :
    ∀ fuel n, ∀ c ∈ natDigitsAux fuel n, 48 ≤ c.toNat ∧ c.toNat ≤ 57 := by
  intro fuel
  induction fuel with
  | zero => intro n c hc; simp [natDigitsAux] at hc
  | succ fuel ih =>
    intro n c hc
    rw [natDigitsAux] at hc
    by_cases hn : n < 10
    · rw [if_pos hn] at hc
      simp at hc
      subst hc
      rw [digitChar_toNat hn]
      omega
    · rw [if_neg hn] at hc
      rcases List.mem_append.mp hc with h1 | h2
      · exact ih _ c h1
      · simp at h2
        subst h2
        rw [digitChar_toNat (Nat.mod_lt _ (by omega))]
        omega

lemma d_not_mem_natDigits (n : ℕ) : 'd' ∉ natDigits n := by
  intro h
  have := natDigitsAux_digit 64 n 'd' h
  have hd : Char.toNat 'd' = 100 := rfl
  omega

lemma h_not_mem_natDigits (n : ℕ) : 'h' ∉ natDigits n := by
  intro h
  have := natDigitsAux_digit 64 n 'h' h
  have hh : Char.toNat 'h' = 104 := rfl
  omega

lemma m_not_mem_natDigits (n : ℕ) : 'm' ∉ natDigits n := by
  intro h
  have := natDigitsAux_digit 64 n 'm' h
  have hm : Char.toNat 'm' = 109 := rfl
  omega

lemma natDigits_ne_nil (n : ℕ) : natDigits n ≠ [] := by
  rw [natDigits, natDigitsAux]
  split_ifs <;> simp

lemma natRepr_data (n : ℕ) : (natRepr n).data = natDigits n := rfl

lemma uptimeStr_cases (s : ℕ) :
    uptimeStr s =
      if 0 < s / 86400 then
        natRepr (s / 86400) ++ "d " ++ natRepr (s % 86400 / 3600) ++ "h "
          ++ natRepr (s % 86400 / 60 % 60) ++ "m"
      else if 0 < s % 86400 / 3600 then
        natRepr (s % 86400 / 3600) ++ "h " ++ natRepr (s % 86400 / 60 % 60) ++ "m"
      else natRepr (s % 86400 / 60 % 60) ++ "m" := rfl

lemma uptimeStr_marks (s : ℕ) :
    ('d' ∈ (uptimeStr s).data ↔ 86400 ≤ s)
      ∧ ('h' ∈ (uptimeStr s).data ↔ 3600 ≤ s % 86400 ∨ 86400 ≤ s)
      ∧ (uptimeStr s).data.getLast? = some 'm' := by
  rw [uptimeStr_cases]
  by_cases hd : 0 < s / 86400
  · rw [if_pos hd]
    refine ⟨?_, ?_, ?_⟩
    · simp [String.data_append, natRepr_data]
      omega
    · simp [String.data_append, natRepr_data]
      omega
    · rw [String.data_append]
      exact List.getLast?_concat _
  · rw [if_neg hd]
    by_cases hh : 0 < s % 86400 / 3600
    · rw [if_pos hh]
      refine ⟨?_, ?_, ?_⟩
      · simp [String.data_append, natRepr_data, d_not_mem_natDigits]
        omega
      · simp [String.data_append, natRepr_data]
        omega
      · rw [String.data_append]
        exact List.getLast?_concat _
    · rw [if_neg hh]
      refine ⟨?_, ?_, ?_⟩
      · simp [String.data_append, natRepr_data, d_not_mem_natDigits]
        omega
      · simp [String.data_append, natRepr_data, h_not_mem_natDigits]
        omega
      · rw [String.data_append]
        exact List.getLast?_concat _

/-- C3: for every argument within chrono's seconds bound (9223372036854775 —
the amendment the wrap/abort behaviour of `unix_time as i64` and
`Duration::seconds` forces), `convert_unix_to_human_string` decomposes its
argument into days `s / 86400`, hours `(s mod 86400) / 3600`, minutes
`(s mod 86400) / 60 mod 60`, discards seconds, and renders them under the
first-match selection policy (`uptimeStr`); the claim's concrete values
`0 ↦ "0m"`, `65 ↦ "1m"`, `90 ↦ "1m"`, `3661 ↦ "1h 1m"`,
`90065 ↦ "1d 1h 1m"` all hold. -/
theorem C3_duration_decomposition (n : ℕ) (h : n ≤ 9223372036854775) :
    convert_unix_to_human_string n = some (uptimeStr n)
      ∧ convert_unix_to_human_string 0 = some "0m"
      ∧ convert_unix_to_human_string 65 = some "1m"
      ∧ convert_unix_to_human_string 90 = some "1m"
      ∧ convert_unix_to_human_string 3661 = some "1h 1m"
      ∧ convert_unix_to_human_string 90065 = some "1d 1h 1m" :=
  ⟨convert_eq_uptimeStr n h, by decide, by decide, by decide, by decide, by decide⟩

/-- Witness for C3 at the concrete input 90065. -/
theorem C3_duration_decomposition_witness :
    convert_unix_to_human_string 90065 = some (uptimeStr 90065)
      ∧ convert_unix_to_human_string 90065 = some "1d 1h 1m" :=
  ⟨(C3_duration_decomposition 90065 (by norm_num)).1,
   (C3_duration_decomposition 90065 (by norm_num)).2.2.2.2.2⟩

/-- C3 counterexample: at `2^64 - 1` (a valid `usize` on the 64-bit targets
the program builds for) the cast `unix_time as i64` wraps to `-1`, so the
code prints `"0m"` even though the claimed decomposition has
`days = (2^64 - 1) / 86400 > 0` and would render a `"{days}d ..."` string. -/
theorem C3_duration_decomposition_counterexample :
    convert_unix_to_human_string (2 ^ 64 - 1) = some "0m"
      ∧ uptimeStr (2 ^ 64 - 1) ≠ "0m"
      ∧ 0 < (2 ^ 64 - 1) / 86400 :=
  ⟨by decide, by decide, by decide⟩

/-- C6: for every `s` within chrono's seconds bound (the amendment forced by
the wrap/abort behaviour on larger `usize` values), the rendered string
contains `'d'` iff `s ≥ 86400`, contains `'h'` iff `s mod 86400 ≥ 3600` or
`s ≥ 86400`, and always ends in `'m'`. -/
theorem C6_uptime_markers (s : ℕ) (h : s ≤ 9223372036854775) :
    (convert_unix_to_human_string s).isSome = true
      ∧ ('d' ∈ ((convert_unix_to_human_string s).getD "").data ↔ 86400 ≤ s)
      ∧ ('h' ∈ ((convert_unix_to_human_string s).getD "").data
          ↔ 3600 ≤ s % 86400 ∨ 86400 ≤ s)
      ∧ ((convert_unix_to_human_string s).getD "").data.getLast? = some 'm' := by
  rw [convert_eq_uptimeStr s h]
  have hm := uptimeStr_marks s
  exact ⟨rfl, hm.1, hm.2.1, hm.2.2⟩

/-- Witness for C6 at the concrete input 90065. -/
theorem C6_uptime_markers_witness :
    (convert_unix_to_human_string 90065).isSome = true
      ∧ ('d' ∈ ((convert_unix_to_human_string 90065).getD "").data ↔ 86400 ≤ 90065)
      ∧ ('h' ∈ ((convert_unix_to_human_string 90065).getD "").data
          ↔ 3600 ≤ 90065 % 86400 ∨ 86400 ≤ 90065)
      ∧ ((convert_unix_to_human_string 90065).getD "").data.getLast? = some 'm' :=
  C6_uptime_markers 90065 (by norm_num)

/-- C6 counterexample: `s = 2^64 - 1` is `≥ 86400`, yet the code renders
`"0m"` (the `as i64` cast wraps to `-1`), which contains no `'d'`; so the
claim's "for all non-negative integers s" is false as stated. -/
theorem C6_uptime_markers_counterexample :
    convert_unix_to_human_string (2 ^ 64 - 1) = some "0m"
      ∧ 86400 ≤ 2 ^ 64 - 1
      ∧ 'd' ∉ ("0m").data :=
  ⟨by decide, by norm_num, by decide⟩

/-- C7: on the amended domain — arguments within chrono's seconds bound
9223372036854775 — the function is total: it aborts on no input, the cast
does not wrap (the output is determined by the argument's own
day/hour/minute decomposition, whose components are naturals, hence
non-negative), and the result is a non-empty string. -/
theorem C7_duration_total (n : ℕ) (h : n ≤ 9223372036854775) :
    (convert_unix_to_human_string n).isSome = true
      ∧ convert_unix_to_human_string n = some (uptimeStr n)
      ∧ (convert_unix_to_human_string n).getD "" ≠ "" := by
  have hc := convert_eq_uptimeStr n h
  refine ⟨by rw [hc]; rfl, hc, ?_⟩
  rw [hc]
  intro hcontra
  have hdata : (uptimeStr n).data = [] := by
    rw [show (Option.getD (some (uptimeStr n)) "") = uptimeStr n from rfl] at hcontra
    rw [hcontra]
  have hlast := (uptimeStr_marks n).2.2
  rw [hdata] at hlast
  simp at hlast

/-- Witness for C7 at the concrete input 3725. -/
theorem C7_duration_total_witness :
    (convert_unix_to_human_string 3725).isSome = true
      ∧ convert_unix_to_human_string 3725 = some (uptimeStr 3725)
      ∧ (convert_unix_to_human_string 3725).getD "" ≠ "" :=
  C7_duration_total 3725 (by norm_num)

/-- C7 counterexample: `9223372036854776` is a plain in-range `usize` value
(below `2^63`, so `as i64` does not even wrap) on which
`chrono::Duration::seconds` aborts — the function is not total over all
`usize` values, contradicting the claim's "including values at and near the
top of the usize range ... does not abort or wrap". -/
theorem C7_duration_total_counterexample :
    convert_unix_to_human_string 9223372036854776 = none
      ∧ (9223372036854776 : ℕ) < 2 ^ 63 :=
  ⟨by decide, by norm_num⟩

lemma lookupB_insertSample (m : List (String × CpuInfo)) (s : RawCpuSample) (b : String) :
    lookupB b (insertSample m s) =
      if s.brand = b then some (applySample ((lookupB b m).getD emptyCpuInfo) s)
      else lookupB b m := by
  induction m with
  | nil => simp [insertSample, lookupB]
  | cons kv rest ih =>
    obtain ⟨k, v⟩ := kv
    by_cases hks : k = s.brand
    · subst hks
      by_cases hb : s.brand = b
      · subst hb
        simp [insertSample, lookupB]
      · simp [insertSample, lookupB, hb]
    · by_cases hb : s.brand = b
      · subst hb
        simp [insertSample, lookupB, hks, ih]
      · simp [insertSample, lookupB, hks, hb, ih]

lemma lookupB_foldl (l : List RawCpuSample) :
    ∀ (m : List (String × CpuInfo)) (b : String),
      lookupB b (l.foldl insertSample m) =
        if (lookupB b m).isSome ∨ brandSamples b l ≠ [] then
          some (List.foldl applySample ((lookupB b m).getD emptyCpuInfo) (brandSamples b l))
        else none := by
  induction l with
  | nil =>
    intro m b
    cases h : lookupB b m <;> simp [brandSamples, h]
  | cons s l ih =>
    intro m b
    rw [List.foldl_cons, ih (insertSample m s) b, lookupB_insertSample]
    by_cases hsb : s.brand = b
    · have hfb : brandSamples b (s :: l) = s :: brandSamples b l := by
        simp [brandSamples, List.filter_cons, hsb]
      rw [if_pos hsb, hfb]
      simp [List.foldl_cons]
    · have hfb : brandSamples b (s :: l) = brandSamples b l := by
        simp [brandSamples, List.filter_cons, hsb]
      rw [if_neg hsb, hfb]

lemma if_lt_eq_max (a b : ℚ) : (if a < b then b else a) = max a b := by
  rcases le_or_lt b a with h | h
  · rw [if_neg (not_lt.mpr h), max_eq_left h]
  · rw [if_pos h, max_eq_right (le_of_lt h)]

lemma foldl_applySample_spec (fl : List RawCpuSample) :
    ∀ (c : CpuInfo), 0 ≤ c.max_frequency_mhz →
      List.foldl applySample c fl =
        ⟨c.num_cores + fl.length,
         c.avg_usage + (fl.map RawCpuSample.usage_percent).sum,
         max c.max_frequency_mhz (((fl.map RawCpuSample.frequency_mhz).foldr max 0 : ℕ) : ℚ)⟩ := by
  induction fl with
  | nil =>
    intro c h0
    obtain ⟨cn, ca, cm⟩ := c
    simp only [List.foldl_nil, List.map_nil, List.sum_nil, List.foldr_nil, Nat.cast_zero,
      List.length_nil]
    simp only at h0
    rw [Nat.add_zero, add_zero, max_eq_left h0]
  | cons s fl ih =>
    intro c h0
    have hmax0 : 0 ≤ (applySample c s).max_frequency_mhz := by
      simp only [applySample]
      split_ifs with hf
      · positivity
      · exact h0
    rw [List.foldl_cons, ih (applySample c s) hmax0]
    simp only [applySample, gt_iff_lt, if_lt_eq_max, List.map_cons, List.sum_cons,
      List.foldr_cons, List.length_cons, CpuInfo.mk.injEq]
    refine ⟨by omega, by ring, ?_⟩
    push_cast [Nat.cast_max]
    rw [max_assoc]

lemma lookupB_eq_none_iff (b : String) (m : List (String × CpuInfo)) :
    lookupB b m = none ↔ b ∉ m.map Prod.fst := by
  induction m with
  | nil => simp [lookupB]
  | cons kv rest ih =>
    obtain ⟨k, v⟩ := kv
    by_cases hkb : k = b <;> simp_all [lookupB, eq_comm]

lemma keys_insertSample (m : List (String × CpuInfo)) (s : RawCpuSample) :
    (insertSample m s).map Prod.fst =
      if (lookupB s.brand m).isSome then m.map Prod.fst
      else m.map Prod.fst ++ [s.brand] := by
  induction m with
  | nil => simp [insertSample, lookupB]
  | cons kv rest ih =>
    obtain ⟨k, v⟩ := kv
    by_cases hks : k = s.brand
    · simp_all [insertSample, lookupB]
    · simp_all [insertSample, lookupB]
      split_ifs <;> simp

lemma nodupKeys_insertSample (m : List (String × CpuInfo)) (s : RawCpuSample)
    (h : (m.map Prod.fst).Nodup) : ((insertSample m s).map Prod.fst).Nodup := by
  rw [keys_insertSample]
  split_ifs with hs
  · exact h
  · have hmem : s.brand ∉ m.map Prod.fst :=
      (lookupB_eq_none_iff s.brand m).mp (Option.not_isSome_iff_eq_none.mp hs)
    simp [List.nodup_append, h, hmem]

lemma nodupKeys_foldl (l : List RawCpuSample) :
    ∀ m, (m.map Prod.fst).Nodup → ((l.foldl insertSample m).map Prod.fst).Nodup := by
  induction l with
  | nil => intro m h; simpa using h
  | cons s l ih =>
    intro m h
    rw [List.foldl_cons]
    exact ih _ (nodupKeys_insertSample m s h)

lemma sum_num_insertSample (m : List (String × CpuInfo)) (s : RawCpuSample) :
    ((insertSample m s).map (fun p => p.2.num_cores)).sum
      = (m.map (fun p => p.2.num_cores)).sum + 1 := by
  induction m with
  | nil => simp [insertSample, applySample, emptyCpuInfo]
  | cons kv rest ih =>
    obtain ⟨k, v⟩ := kv
    by_cases hks : k = s.brand <;> simp_all [insertSample, applySample] <;> omega

lemma sum_num_foldl (l : List RawCpuSample) :
    ∀ m, ((l.foldl insertSample m).map (fun p => p.2.num_cores)).sum
      = (m.map (fun p => p.2.num_cores)).sum + l.length := by
  induction l with
  | nil => intro m; simp
  | cons s l ih =>
    intro m
    rw [List.foldl_cons, ih (insertSample m s), sum_num_insertSample]
    simp only [List.length_cons]
    omega

lemma lookupB_normalizeAvg (b : String) (m : List (String × CpuInfo)) :
    lookupB b (normalizeAvg m) =
      (lookupB b m).map
        (fun v => ⟨v.num_cores, v.avg_usage / (v.num_cores : ℚ), v.max_frequency_mhz⟩) := by
  induction m with
  | nil => simp [normalizeAvg, lookupB]
  | cons kv rest ih =>
    obtain ⟨k, v⟩ := kv
    by_cases hkb : k = b <;> simp_all [normalizeAvg, lookupB]

lemma keys_normalizeAvg (m : List (String × CpuInfo)) :
    (normalizeAvg m).map Prod.fst = m.map Prod.fst := by
  simp [normalizeAvg]

lemma sum_num_normalizeAvg (m : List (String × CpuInfo)) :
    ((normalizeAvg m).map (fun p => p.2.num_cores)).sum
      = (m.map (fun p => p.2.num_cores)).sum := by
  induction m with
  | nil => simp [normalizeAvg]
  | cons kv rest ih => simp_all [normalizeAvg]

lemma foldr_max_mem (fs : List ℕ) (h : fs ≠ []) : fs.foldr max 0 ∈ fs := by
  induction fs with
  | nil => exact absurd rfl h
  | cons f fs ih =>
    rw [List.foldr_cons]
    rcases eq_or_ne fs [] with rfl | hne
    · simp
    · rcases le_total (fs.foldr max 0) f with hle | hle
      · simp [max_eq_left hle]
      · rw [max_eq_right hle]
        exact List.mem_cons_of_mem f (ih hne)

lemma le_foldr_max (fs : List ℕ) : ∀ x ∈ fs, x ≤ fs.foldr max 0 := by
  induction fs with
  | nil => simp
  | cons f fs ih =>
    intro x hx
    rw [List.foldr_cons]
    rcases List.mem_cons.mp hx with rfl | hmem
    · exact le_max_left _ _
    · exact le_trans (ih x hmem) (le_max_right _ _)

/-- C1: `get_cpu_info` produces exactly one group per distinct exact brand
string (the key list is duplicate-free and contains a brand iff some sample
carries it); the group of brand `b` has `num_cores` equal to the number of
`b`-samples, `avg_usage` equal to their usage sum divided by that count, and
`max_frequency_mhz` equal to the greatest frequency among them (which is
attained by one of the group's samples and bounds them all); the group core
counts sum to the input length; and the empty input yields the empty map. -/
theorem C1_cpu_aggregate (l : List RawCpuSample) :
    get_cpu_info ([] : List RawCpuSample) = []
      ∧ ((get_cpu_info l).map Prod.fst).Nodup
      ∧ (∀ b, b ∈ (get_cpu_info l).map Prod.fst ↔ 0 < countBrand b l)
      ∧ (∀ b, lookupB b (get_cpu_info l) =
          if 0 < countBrand b l then
            some ⟨countBrand b l, sumUsage b l / (countBrand b l : ℚ), (maxFreqN b l : ℚ)⟩
          else none)
      ∧ (∀ b, 0 < countBrand b l →
          maxFreqN b l ∈ (brandSamples b l).map RawCpuSample.frequency_mhz
            ∧ ∀ s ∈ brandSamples b l, s.frequency_mhz ≤ maxFreqN b l)
      ∧ ((get_cpu_info l).map (fun p => p.2.num_cores)).sum = l.length := by
  have hlookup : ∀ b, lookupB b (get_cpu_info l) =
      if 0 < countBrand b l then
        some ⟨countBrand b l, sumUsage b l / (countBrand b l : ℚ), (maxFreqN b l : ℚ)⟩
      else none := by
    intro b
    rw [get_cpu_info, lookupB_normalizeAvg, lookupB_foldl]
    simp only [lookupB, Option.isSome_none, Bool.false_eq_true, false_or, Option.getD_none]
    by_cases hbs : brandSamples b l = []
    · rw [if_neg (by simp [hbs]), if_neg (by simp [countBrand, hbs])]
      simp
    · rw [if_pos hbs, if_pos (by simp [countBrand, List.length_pos, hbs])]
      rw [foldl_applySample_spec (brandSamples b l) emptyCpuInfo (le_refl 0)]
      simp only [Option.map_some']
      have hmax : max emptyCpuInfo.max_frequency_mhz
          ((((brandSamples b l).map RawCpuSample.frequency_mhz).foldr max 0 : ℕ) : ℚ) =
          ((maxFreqN b l : ℕ) : ℚ) := by
        rw [show emptyCpuInfo.max_frequency_mhz = 0 from rfl]
        rw [max_eq_right (Nat.cast_nonneg _)]
        rfl
      rw [hmax]
      simp [emptyCpuInfo, countBrand, sumUsage]
  have hkeys : ∀ b, b ∈ (get_cpu_info l).map Prod.fst ↔ 0 < countBrand b l := by
    intro b
    have hnone := lookupB_eq_none_iff b (get_cpu_info l)
    rw [hlookup b] at hnone
    by_cases hc : 0 < countBrand b l
    · rw [if_pos hc] at hnone
      simp only [reduceCtorEq, false_iff, not_not] at hnone
      exact ⟨fun _ => hc, fun _ => hnone⟩
    · rw [if_neg hc] at hnone
      simp only [true_iff] at hnone
      exact ⟨fun hmem => absurd hmem hnone, fun hcc => absurd hcc hc⟩
  refine ⟨rfl, ?_, hkeys, hlookup, ?_, ?_⟩
  · rw [get_cpu_info, keys_normalizeAvg]
    exact nodupKeys_foldl l [] (by simp)
  · intro b hb
    have hne : (brandSamples b l).map RawCpuSample.frequency_mhz ≠ [] := by
      simp only [ne_eq, List.map_eq_nil_iff]
      intro hcontra
      rw [countBrand, hcontra] at hb
      simp at hb
    exact ⟨foldr_max_mem _ hne,
      fun s hs => le_foldr_max _ _ (List.mem_map_of_mem RawCpuSample.frequency_mhz hs)⟩
  · rw [get_cpu_info, sum_num_normalizeAvg, sum_num_foldl]
    simp

/-- Witness for C1 on the concrete two-brand sample list `demoSamples`. -/
theorem C1_cpu_aggregate_witness :
    lookupB "A" (get_cpu_info demoSamples) = some ⟨2, 50, 3000⟩
      ∧ maxFreqN "A" demoSamples
          ∈ (brandSamples "A" demoSamples).map RawCpuSample.frequency_mhz
      ∧ ((get_cpu_info demoSamples).map (fun p => p.2.num_cores)).sum = 3 := by
  have h := C1_cpu_aggregate demoSamples
  refine ⟨?_, (h.2.2.2.2.1 "A" (by decide)).1, h.2.2.2.2.2⟩
  have h4 := h.2.2.2.1 "A"
  have hcount : countBrand "A" demoSamples = 2 := by decide
  have hmaxf : maxFreqN "A" demoSamples = 3000 := by decide
  have hsum : sumUsage "A" demoSamples = 100 := by
    simp +decide only [sumUsage, brandSamples, demoSamples, List.filter_cons, List.map_cons,
      List.sum_cons, List.filter_nil, List.map_nil, List.sum_nil]
    norm_num
  rw [h4, hcount, hmaxf, hsum]
  norm_num

lemma gpuLoop_lower (l : List AdapterInfo) :
    ∀ idx, ∀ g ∈ gpuLoop idx l, idx ≤ g.device_index := by
  induction l with
  | nil => intro idx g hg; simp [gpuLoop] at hg
  | cons a rest ih =>
    intro idx g hg
    rw [gpuLoop] at hg
    split_ifs at hg with hskip
    · exact le_trans (by omega) (ih (idx + 1) g hg)
    · rcases List.mem_cons.mp hg with rfl | hmem
      · exact le_refl _
      · exact le_trans (by omega) (ih (idx + 1) g hmem)

lemma gpuLoop_upper (l : List AdapterInfo) :
    ∀ idx, ∀ g ∈ gpuLoop idx l, g.device_index < idx + l.length := by
  induction l with
  | nil => intro idx g hg; simp [gpuLoop] at hg
  | cons a rest ih =>
    intro idx g hg
    rw [gpuLoop] at hg
    rw [List.length_cons]
    split_ifs at hg with hskip
    · have := ih (idx + 1) g hg
      omega
    · rcases List.mem_cons.mp hg with rfl | hmem
      · show idx < idx + (rest.length + 1)
        omega
      · have := ih (idx + 1) g hmem
        omega

lemma gpuLoop_sorted (l : List AdapterInfo) :
    ∀ idx, (gpuLoop idx l).Pairwise (fun x y => x.device_index < y.device_index) := by
  induction l with
  | nil => intro idx; simp [gpuLoop]
  | cons a rest ih =>
    intro idx
    rw [gpuLoop]
    split_ifs with hskip
    · exact ih (idx + 1)
    · refine List.Pairwise.cons ?_ (ih (idx + 1))
      intro g hg
      have := gpuLoop_lower rest (idx + 1) g hg
      simp only
      omega

/-- The stable sort in `get_gpu_info` is the identity: the loop already emits
records in strictly increasing index order. -/
lemma get_gpu_info_eq (l : List AdapterInfo) : get_gpu_info l = gpuLoop 0 l := by
  rw [get_gpu_info]
  apply List.mergeSort_of_sorted
  refine (gpuLoop_sorted l 0).imp ?_
  intro a b hab
  simpa using Nat.le_of_lt hab

lemma gpuLoop_filter_lt (l : List AdapterInfo) :
    ∀ idx j, j < idx → (gpuLoop idx l).filter (fun g => g.device_index = j) = [] := by
  intro idx j hj
  rw [List.filter_eq_nil_iff]
  intro g hg
  have := gpuLoop_lower l idx g hg
  simp only [decide_eq_true_eq]
  omega

lemma gpuLoop_filter (l : List AdapterInfo) :
    ∀ idx i a, l[i]? = some a →
      (gpuLoop idx l).filter (fun g => g.device_index = idx + i) =
        (if a.device_type = DeviceType.Other ∨ a.device_type = DeviceType.Cpu then []
         else [⟨idx + i, gpuDisplayName a⟩]) := by
  induction l with
  | nil => intro idx i a ha; simp at ha
  | cons x rest ih =>
    intro idx i a ha
    cases i with
    | zero =>
      rw [List.getElem?_cons_zero] at ha
      injection ha with ha
      subst ha
      rw [gpuLoop, Nat.add_zero]
      split_ifs with hskip
      · exact gpuLoop_filter_lt rest (idx + 1) idx (by omega)
      · rw [List.filter_cons, gpuLoop_filter_lt rest (idx + 1) idx (by omega)]
        simp
    | succ j =>
      rw [List.getElem?_cons_succ] at ha
      rw [gpuLoop]
      have harith : idx + (j + 1) = (idx + 1) + j := by omega
      by_cases hskip : x.device_type = DeviceType.Other ∨ x.device_type = DeviceType.Cpu
      · rw [if_pos hskip, harith]
        exact ih (idx + 1) j a ha
      · rw [if_neg hskip, List.filter_cons]
        have hne : (decide ((⟨idx, gpuDisplayName x⟩ : GpuInfo).device_index = idx + (j + 1)))
            = false := by
          simp only [decide_eq_false_iff_not]
          show ¬ idx = idx + (j + 1)
          omega
        rw [hne]
        simp only [Bool.false_eq_true, if_false]
        rw [harith]
        exact ih (idx + 1) j a ha

lemma gpuDisplayName_label (a : AdapterInfo)
    (h1 : a.device_type ≠ DeviceType.Other) (h2 : a.device_type ≠ DeviceType.Cpu) :
    gpuDisplayName a = a.name ++ " (" ++ retainedLabel a.device_type ++ ")" := by
  obtain ⟨nm, dt⟩ := a
  cases dt
  · exact absurd rfl h1
  · show nm ++ " (Integrated GPU)" = nm ++ " (" ++ "Integrated GPU" ++ ")"
    rw [String.append_assoc, String.append_assoc]
    congr 1
  · show nm ++ " (Discrete GPU)" = nm ++ " (" ++ "Discrete GPU" ++ ")"
    rw [String.append_assoc, String.append_assoc]
    congr 1
  · show nm ++ " (Virtual GPU)" = nm ++ " (" ++ "Virtual GPU" ++ ")"
    rw [String.append_assoc, String.append_assoc]
    congr 1
  · exact absurd rfl h2

lemma mem_gpuLoop (l : List AdapterInfo) :
    ∀ idx g, g ∈ gpuLoop idx l →
      ∃ a ∈ l, a.device_type ≠ DeviceType.Other ∧ a.device_type ≠ DeviceType.Cpu
        ∧ g.gpu_name = gpuDisplayName a := by
  induction l with
  | nil => intro idx g hg; simp [gpuLoop] at hg
  | cons x rest ih =>
    intro idx g hg
    rw [gpuLoop] at hg
    split_ifs at hg with hskip
    · obtain ⟨a, hal, h1, h2, hname⟩ := ih (idx + 1) g hg
      exact ⟨a, List.mem_cons_of_mem x hal, h1, h2, hname⟩
    · rcases List.mem_cons.mp hg with rfl | hmem
      · push_neg at hskip
        exact ⟨x, List.mem_cons_self x rest, hskip.1, hskip.2, rfl⟩
      · obtain ⟨a, hal, h1, h2, hname⟩ := ih (idx + 1) g hmem
        exact ⟨a, List.mem_cons_of_mem x hal, h1, h2, hname⟩

/-- C2: every adapter whose kind is `Other` (unknown) or `Cpu` (software
rasterizer) yields no record at its enumeration position; every other
adapter yields exactly one record, carrying its original enumeration
position unchanged as `device_index` and a `display_name` of the form
`"{name} ({kind label})"`; all record indices lie below the input length. -/
theorem C2_gpu_enumeration (l : List AdapterInfo) (i : ℕ) (a : AdapterInfo)
    (h : l[i]? = some a) :
    (get_gpu_info l).filter (fun g => g.device_index = i) =
      (if a.device_type = DeviceType.Other ∨ a.device_type = DeviceType.Cpu then []
       else [⟨i, a.name ++ " (" ++ retainedLabel a.device_type ++ ")"⟩])
      ∧ ∀ g ∈ get_gpu_info l, g.device_index < l.length := by
  rw [get_gpu_info_eq]
  constructor
  · have hf := gpuLoop_filter l 0 i a h
    rw [Nat.zero_add] at hf
    rw [hf]
    by_cases hskip : a.device_type = DeviceType.Other ∨ a.device_type = DeviceType.Cpu
    · rw [if_pos hskip, if_pos hskip]
    · rw [if_neg hskip, if_neg hskip]
      push_neg at hskip
      rw [gpuDisplayName_label a hskip.1 hskip.2]
  · intro g hg
    have := gpuLoop_upper l 0 g hg
    omega

/-- Witness for C2 on `demoAdapters`: position 1 (a software rasterizer) is
dropped, position 0 (a discrete GPU) yields exactly its labelled record, and
all indices are in range. -/
theorem C2_gpu_enumeration_witness :
    (get_gpu_info demoAdapters).filter (fun g => g.device_index = 1) = []
      ∧ (get_gpu_info demoAdapters).filter (fun g => g.device_index = 0)
          = [⟨0, "Card (Discrete GPU)"⟩]
      ∧ ∀ g ∈ get_gpu_info demoAdapters, g.device_index < demoAdapters.length := by
  have h1 := C2_gpu_enumeration demoAdapters 1 ⟨"Soft", DeviceType.Cpu⟩ rfl
  have h0 := C2_gpu_enumeration demoAdapters 0 ⟨"Card", DeviceType.DiscreteGpu⟩ rfl
  refine ⟨?_, ?_, h1.2⟩
  · rw [h1.1]
    decide
  · rw [h0.1]
    decide

/-- C5: for every adapter list — hence for every ordering of the descriptors,
including reversed input — the `device_index` values in the output of
`get_gpu_info` are monotonically increasing (sorted ascending). -/
theorem C5_gpu_sorted (l : List AdapterInfo) :
    List.Sorted (fun x y => x ≤ y) ((get_gpu_info l).map GpuInfo.device_index)
      ∧ List.Sorted (fun x y => x ≤ y) ((get_gpu_info l.reverse).map GpuInfo.device_index) := by
  constructor
  · rw [get_gpu_info_eq, List.Sorted, List.pairwise_map]
    exact (gpuLoop_sorted l 0).imp (fun h => Nat.le_of_lt h)
  · rw [get_gpu_info_eq, List.Sorted, List.pairwise_map]
    exact (gpuLoop_sorted l.reverse 0).imp (fun h => Nat.le_of_lt h)

lemma endsIn_exclusive {s u v : String} (hu : EndsIn s u)
    (h1 : ¬ (u.data <:+ v.data)) (h2 : ¬ (v.data <:+ u.data)) : ¬ EndsIn s v := by
  intro hv
  rcases List.suffix_or_suffix_of_suffix hu hv with h | h
  · exact h1 h
  · exact h2 h

lemma endsIn_append (nm sfx : String) : EndsIn (nm ++ sfx) sfx := by
  rw [EndsIn, String.data_append]
  exact List.suffix_append nm.data sfx.data

/-- C10: every `gpu_name` produced by `get_gpu_info` ends in exactly one of
`" (Integrated GPU)"`, `" (Discrete GPU)"`, `" (Virtual GPU)"`; the
`"(Software Rasterizer)"` and `"(unknown gpu type)"` match arms are
unreachable because those adapters are filtered out first. -/
theorem C10_gpu_name_labels (l : List AdapterInfo) (g : GpuInfo)
    (h : g ∈ get_gpu_info l) :
    (EndsIn g.gpu_name " (Integrated GPU)" ∧ ¬EndsIn g.gpu_name " (Discrete GPU)"
        ∧ ¬EndsIn g.gpu_name " (Virtual GPU)")
      ∨ (¬EndsIn g.gpu_name " (Integrated GPU)" ∧ EndsIn g.gpu_name " (Discrete GPU)"
        ∧ ¬EndsIn g.gpu_name " (Virtual GPU)")
      ∨ (¬EndsIn g.gpu_name " (Integrated GPU)" ∧ ¬EndsIn g.gpu_name " (Discrete GPU)"
        ∧ EndsIn g.gpu_name " (Virtual GPU)") := by
  rw [get_gpu_info_eq] at h
  obtain ⟨a, _, h1, h2, hname⟩ := mem_gpuLoop l 0 g h
  obtain ⟨nm, dt⟩ := a
  cases dt
  · exact absurd rfl h1
  · left
    have he : EndsIn g.gpu_name " (Integrated GPU)" := by
      rw [hname]
      exact endsIn_append nm " (Integrated GPU)"
    exact ⟨he, endsIn_exclusive he (by decide) (by decide),
      endsIn_exclusive he (by decide) (by decide)⟩
  · right; left
    have he : EndsIn g.gpu_name " (Discrete GPU)" := by
      rw [hname]
      exact endsIn_append nm " (Discrete GPU)"
    exact ⟨endsIn_exclusive he (by decide) (by decide), he,
      endsIn_exclusive he (by decide) (by decide)⟩
  · right; right
    have he : EndsIn g.gpu_name " (Virtual GPU)" := by
      rw [hname]
      exact endsIn_append nm " (Virtual GPU)"
    exact ⟨endsIn_exclusive he (by decide) (by decide),
      endsIn_exclusive he (by decide) (by decide), he⟩
  · exact absurd rfl h2

/-- Witness for C10 on the discrete record of `demoAdapters`. -/
theorem C10_gpu_name_labels_witness :
    ¬EndsIn "Card (Discrete GPU)" " (Integrated GPU)"
      ∧ EndsIn "Card (Discrete GPU)" " (Discrete GPU)"
      ∧ ¬EndsIn "Card (Discrete GPU)" " (Virtual GPU)" := by
  have hmem : (⟨0, "Card (Discrete GPU)"⟩ : GpuInfo) ∈ get_gpu_info demoAdapters := by
    rw [get_gpu_info_eq]
    decide
  have h := C10_gpu_name_labels demoAdapters ⟨0, "Card (Discrete GPU)"⟩ hmem
  rcases h with h | h | h
  · refine absurd h.1 ?_
    show ¬ (" (Integrated GPU)".data <:+ ("Card (Discrete GPU)" : String).data)
    decide
  · exact h
  · refine absurd h.2.2 ?_
    show ¬ (" (Virtual GPU)".data <:+ ("Card (Discrete GPU)" : String).data)
    decide

lemma compose_eq (o : OutputInfo) (h : o.uptime ≤ 9223372036854775) :
    compose o = some
      ([o.username ++ "@" ++ o.hostname,
        String.mk (List.replicate (o.username.utf8ByteSize + o.hostname.utf8ByteSize + 1) '-'),
        "OS:        " ++ o.os,
        "Serial:    " ++ o.serial_number,
        "Kernel:    " ++ o.kernel,
        "Uptime:    " ++ uptimeStr o.uptime]
        ++ o.cpu.map cpuLine
        ++ o.gpu.map gpuLine
        ++ ["Memory:    " ++ natRepr o.memory_used_mb ++ "/"
              ++ natRepr o.memory_total_mb ++ " MB used"]) := by
  rw [compose, convert_eq_uptimeStr o.uptime h]

/-- C4: provided the uptime is within chrono's seconds bound (the amendment
the abort in the `Uptime:` line forces), the composed vector has exactly
`6 + |cpu| + |gpu| + 1` lines in the fixed order: header, dash separator of
length `len(username) + len(hostname) + 1`, OS, Serial, Kernel, Uptime, one
CPU line per group, one GPU line per record (index right-aligned to width 3
with `.` fill), and a final Memory line; on the §8 scenario the code
produces the claimed lines except that the separator has
`len("alice") + len("box") + 1 = 9` dashes, not 7. -/
theorem C4_compose_lines (o : OutputInfo) (h : o.uptime ≤ 9223372036854775) :
    (∃ lines, compose o = some lines
      ∧ lines.length = 6 + o.cpu.length + o.gpu.length + 1
      ∧ lines =
          [o.username ++ "@" ++ o.hostname,
           String.mk (List.replicate (o.username.utf8ByteSize + o.hostname.utf8ByteSize + 1) '-'),
           "OS:        " ++ o.os,
           "Serial:    " ++ o.serial_number,
           "Kernel:    " ++ o.kernel,
           "Uptime:    " ++ uptimeStr o.uptime]
          ++ o.cpu.map cpuLine
          ++ o.gpu.map gpuLine
          ++ ["Memory:    " ++ natRepr o.memory_used_mb ++ "/"
                ++ natRepr o.memory_total_mb ++ " MB used"])
      ∧ compose demoReport = some
          ["alice@box",
           "---------",
           "OS:        TestOS",
           "Serial:    SN123",
           "Kernel:    1.0",
           "Uptime:    1h 2m",
           "CPU:       Model X - 4 cores, 50.00% avg, 3000.00 MHz (max)",
           "GPU ..0:   Card (Discrete GPU)",
           "Memory:    1024/8192 MB used"] := by
  refine ⟨⟨_, compose_eq o h, ?_, rfl⟩, by decide⟩
  simp only [List.length_append, List.length_map, List.length_cons, List.length_nil]

/-- Witness for C4 on the §8 scenario report itself. -/
theorem C4_compose_lines_witness :
    (∃ lines, compose demoReport = some lines
      ∧ lines.length = 6 + demoReport.cpu.length + demoReport.gpu.length + 1
      ∧ lines =
          [demoReport.username ++ "@" ++ demoReport.hostname,
           String.mk (List.replicate
             (demoReport.username.utf8ByteSize + demoReport.hostname.utf8ByteSize + 1) '-'),
           "OS:        " ++ demoReport.os,
           "Serial:    " ++ demoReport.serial_number,
           "Kernel:    " ++ demoReport.kernel,
           "Uptime:    " ++ uptimeStr demoReport.uptime]
          ++ demoReport.cpu.map cpuLine
          ++ demoReport.gpu.map gpuLine
          ++ ["Memory:    " ++ natRepr demoReport.memory_used_mb ++ "/"
                ++ natRepr demoReport.memory_total_mb ++ " MB used"])
      ∧ compose demoReport = some
          ["alice@box",
           "---------",
           "OS:        TestOS",
           "Serial:    SN123",
           "Kernel:    1.0",
           "Uptime:    1h 2m",
           "CPU:       Model X - 4 cores, 50.00% avg, 3000.00 MHz (max)",
           "GPU ..0:   Card (Discrete GPU)",
           "Memory:    1024/8192 MB used"] :=
  C4_compose_lines demoReport (by norm_num [demoReport])

/-- C4 counterexample: the claim's §8 scenario names a 7-dash separator, but
the code's separator for `alice@box` is `"-".repeat(5 + 3 + 1)` — 9 dashes;
and for a report whose uptime exceeds chrono's bound the claimed line count
fails because composition aborts inside the `Uptime:` line. -/
theorem C4_compose_lines_counterexample :
    ((compose demoReport).getD [])[1]? = some "---------"
      ∧ "---------" ≠ "-------"
      ∧ compose demoHugeUptimeReport = none :=
  ⟨by decide, by decide, by decide⟩

lemma render_eq_cons (ls : List String) :
    render ls = "" :: ((ls.enum.map (fun p =>
        if p.1 < LOGO_HEIGHT then LOGO.getD p.1 "" ++ p.2
        else String.mk (List.replicate LOGO_WIDTH ' ') ++ p.2))
      ++ ((if ls.length < LOGO_HEIGHT then
            (List.range' ls.length (LOGO_HEIGHT - ls.length)).map (fun i => LOGO.getD i "")
          else [])
        ++ [""])) := by
  rw [render]
  simp [List.append_assoc]

lemma logo_row_ne_empty : ∀ i, i < LOGO_HEIGHT → LOGO.getD i "" ≠ "" := by decide

lemma spaces_ne_empty : String.mk (List.replicate LOGO_WIDTH ' ') ≠ "" := by decide

lemma append_ne_empty_left (s t : String) (hs : s ≠ "") : s ++ t ≠ "" := by
  intro h
  apply hs
  have hd := congrArg String.data h
  rw [String.data_append] at hd
  have hnil : s.data = [] := (List.append_eq_nil.mp hd).1
  exact String.ext hnil

/-- C9: the rendering step pairs composed line `i` with logo row `i` for
`i < 9`, pads lines at positions `≥ 9` with 32 spaces instead of a logo row,
emits the remaining bare logo rows when there are fewer lines than logo
rows, and frames the whole output with exactly one blank line before and one
after (every interior emitted line is non-blank). -/
theorem C9_render_pairing (ls : List String) :
    (render ls).length = 2 + max ls.length LOGO_HEIGHT
      ∧ (render ls)[0]? = some ""
      ∧ (render ls).getLast? = some ""
      ∧ (∀ i x, ls[i]? = some x → i < LOGO_HEIGHT →
          (render ls)[i + 1]? = some (LOGO.getD i "" ++ x))
      ∧ (∀ i x, ls[i]? = some x → LOGO_HEIGHT ≤ i →
          (render ls)[i + 1]? = some (String.mk (List.replicate LOGO_WIDTH ' ') ++ x))
      ∧ (∀ i, ls.length ≤ i → i < LOGO_HEIGHT →
          (render ls)[i + 1]? = some (LOGO.getD i ""))
      ∧ (∀ j, 0 < j → j + 1 < (render ls).length → (render ls)[j]? ≠ some "") := by
  have hAlen : (ls.enum.map (fun p =>
      if p.1 < LOGO_HEIGHT then LOGO.getD p.1 "" ++ p.2
      else String.mk (List.replicate LOGO_WIDTH ' ') ++ p.2)).length = ls.length := by
    simp
  refine ⟨?_, ?_, ?_, ?_, ?_, ?_, ?_⟩
  · rw [render_eq_cons]
    by_cases hl : ls.length < LOGO_HEIGHT
    · rw [if_pos hl]
      simp only [List.length_cons, List.length_append, hAlen, List.length_map,
        List.length_range', List.length_nil]
      omega
    · rw [if_neg hl]
      simp only [List.length_cons, List.length_append, hAlen, List.length_nil]
      omega
  · rw [render_eq_cons]
    simp
  · rw [render]
    exact List.getLast?_concat _
  · intro i x hx hi9
    have hilen : i < ls.length := by
      by_contra hcon
      push_neg at hcon
      rw [List.getElem?_eq_none hcon] at hx
      exact Option.noConfusion hx
    rw [render_eq_cons, List.getElem?_cons_succ,
      List.getElem?_append_left (by rw [hAlen]; exact hilen)]
    simp [hx, hi9]
  · intro i x hx hi9
    have hilen : i < ls.length := by
      by_contra hcon
      push_neg at hcon
      rw [List.getElem?_eq_none hcon] at hx
      exact Option.noConfusion hx
    rw [render_eq_cons, List.getElem?_cons_succ,
      List.getElem?_append_left (by rw [hAlen]; exact hilen)]
    simp only [List.getElem?_map, List.getElem?_enum, hx, Option.map_some']
    rw [if_neg (by omega)]
  · intro i hlen hi9
    have hl : ls.length < LOGO_HEIGHT := by omega
    rw [render_eq_cons, List.getElem?_cons_succ,
      List.getElem?_append_right (by rw [hAlen]; exact hlen), hAlen, if_pos hl,
      List.getElem?_append_left
        (by simp only [List.length_map, List.length_range']; omega),
      List.getElem?_map, List.getElem?_range' ls.length 1 (by omega)]
    simp only [Option.map_some', Option.some_inj]
    congr 1
    omega
  · intro j hj0 hjlt hcontra
    obtain ⟨k, rfl⟩ : ∃ k, j = k + 1 := ⟨j - 1, by omega⟩
    rw [render_eq_cons, List.getElem?_cons_succ] at hcontra
    by_cases hkA : k < ls.length
    · rw [List.getElem?_append_left (by rw [hAlen]; exact hkA)] at hcontra
      obtain ⟨y, hy⟩ : ∃ y, ls[k]? = some y := by
        cases hk : ls[k]? with
        | none => rw [List.getElem?_eq_none_iff] at hk; omega
        | some y => exact ⟨y, rfl⟩
      rw [List.getElem?_map, List.getElem?_enum, hy] at hcontra
      simp only [Option.map_some', Option.some_inj] at hcontra
      by_cases hk9 : k < LOGO_HEIGHT
      · rw [if_pos hk9] at hcontra
        exact append_ne_empty_left _ _ (logo_row_ne_empty k hk9) hcontra
      · rw [if_neg hk9] at hcontra
        exact append_ne_empty_left _ _ spaces_ne_empty hcontra
    · push_neg at hkA
      rw [List.getElem?_append_right (by rw [hAlen]; exact hkA)] at hcontra
      rw [hAlen] at hcontra
      by_cases hl : ls.length < LOGO_HEIGHT
      · rw [if_pos hl] at hcontra
        by_cases hkB : k - ls.length < LOGO_HEIGHT - ls.length
        · rw [List.getElem?_append_left
            (by simp only [List.length_map, List.length_range']; exact hkB)] at hcontra
          rw [List.getElem?_map, List.getElem?_range' ls.length 1 hkB] at hcontra
          simp only [Option.map_some', Option.some_inj] at hcontra
          refine logo_row_ne_empty _ ?_ hcontra
          omega
        · -- the remaining position is the final blank line, excluded by hjlt
          rw [render_eq_cons] at hjlt
          simp only [List.length_cons, List.length_append, hAlen, List.length_map,
            List.length_range', List.length_nil, if_pos hl] at hjlt
          omega
      · rw [if_neg hl] at hcontra
        simp only [List.nil_append] at hcontra
        -- hcontra indexes [""] at k - ls.length; that position is the final line
        rw [render_eq_cons] at hjlt
        simp only [List.length_cons, List.length_append, hAlen, List.length_nil,
          if_neg hl] at hjlt
        have : k - ls.length < 1 := by
          by_contra hge
          push_neg at hge
          rw [List.getElem?_eq_none (by simpa using hge)] at hcontra
          exact Option.noConfusion hcontra
        omega

/-- Witness for C9 on the one-line list `["x"]`: line 0 is paired with logo
row 0, row 1 is emitted bare, and the frame blanks sit at the ends. -/
theorem C9_render_pairing_witness :
    (render ["x"]).length = 2 + max 1 LOGO_HEIGHT
      ∧ (render ["x"])[0]? = some ""
      ∧ (render ["x"])[1]? = some (LOGO.getD 0 "" ++ "x")
      ∧ (render ["x"])[2]? = some (LOGO.getD 1 "")
      ∧ (render ["x"]).getLast? = some "" := by
  have h := C9_render_pairing ["x"]
  exact ⟨by simpa using h.1, h.2.1,
    h.2.2.2.1 0 "x" rfl (by norm_num [LOGO_HEIGHT]),
    h.2.2.2.2.2.1 1 (by norm_num) (by norm_num [LOGO_HEIGHT]),
    h.2.2.1⟩

/-- C8: the program emits the single line `"System not supported. Aborting."`
and exits with code 1 exactly when the platform is unsupported; otherwise —
provided the uptime is within chrono's seconds bound (the amendment the
`Uptime:` line abort forces) — it prints the rendered report and exits with
code 0; a failed hostname or serial-number lookup never propagates and is
substituted locally with `"unknown"` / `"xxxxxxxxxx"`. -/
theorem C8_exit_codes (o : OutputInfo) (h : o.uptime ≤ 9223372036854775) :
    main_model false o = some (["System not supported. Aborting."], 1)
      ∧ (∃ ls, compose o = some ls ∧ main_model true o = some (render ls, 0))
      ∧ (∀ s out code, main_model s o = some (out, code) → (code = 1 ↔ s = false))
      ∧ get_hostname none = "unknown"
      ∧ (∀ x, get_hostname (some x) = x)
      ∧ get_serial_number none = "xxxxxxxxxx"
      ∧ get_serial_number (some none) = "xxxxxxxxxx"
      ∧ (∀ x, get_serial_number (some (some x)) = x) := by
  have hc := compose_eq o h
  refine ⟨rfl, ⟨_, hc, ?_⟩, ?_, rfl, fun x => rfl, rfl, rfl, fun x => rfl⟩
  · rw [main_model, if_neg (by simp), hc]
  · intro s out code hm
    cases s
    · rw [main_model, if_pos rfl] at hm
      injection hm with hm
      injection hm with _ hm
      simp [hm.symm]
    · rw [main_model, if_neg (by simp), hc] at hm
      injection hm with hm
      injection hm with _ hm
      simp [hm.symm]

/-- Witness for C8 at the §8 scenario report. -/
theorem C8_exit_codes_witness :
    main_model false demoReport = some (["System not supported. Aborting."], 1)
      ∧ get_hostname none = "unknown"
      ∧ get_hostname (some "box") = "box"
      ∧ get_serial_number (some none) = "xxxxxxxxxx"
      ∧ (∃ ls, compose demoReport = some ls
          ∧ main_model true demoReport = some (render ls, 0)) := by
  have h := C8_exit_codes demoReport (by norm_num [demoReport])
  exact ⟨h.1, h.2.2.2.1, h.2.2.2.2.1 "box", h.2.2.2.2.2.2.1, h.2.1⟩

/-- C8 counterexample: on a supported platform with an uptime beyond chrono's
seconds bound the process aborts inside the `Uptime:` line — it neither
prints the report nor exits with code 0 (and does not exit with code 1
either), so "otherwise it prints the report and exits with code 0" is false
as universally stated. -/
theorem C8_exit_codes_counterexample :
    main_model true demoHugeUptimeReport = none := by decide
